/-
Verification of the blog backend's core primitives against its design
specification: the sliding-window rate limiter (src/backend/middleware.py),
the TTL caches (src/backend/cache.py, backed by cachetools.TTLCache),
slug validation and content loading (src/backend/content_store.py), and
listing assembly, sorting, pagination and ETag generation
(src/backend/main.py).

Modelling conventions:
  - timestamps (Python `time.time()` floats) are modelled as integers;
  - Python lists become Lean lists, dictionaries become association lists
    or oracle functions;
  - external collaborators (storage backends, frontmatter parsing, the MD5
    digest from hashlib) are parameters of the embedded functions;
  - fallible Python code (raising exceptions) returns Except / sum-like
    inductives.
-/
import Mathlib

namespace Blog

/-! ## Sliding-window rate limiter (middleware.py, RateLimitMiddleware) -/

/-- Configuration of RateLimitMiddleware: `requests_per_minute` and
`requests_per_hour` (Python ints, modelled as integers). -/
structure RLConfig where
  requests_per_minute : Int
  requests_per_hour : Int
deriving DecidableEq, Repr

/-- The rate-limit response headers assembled by `_is_rate_limited`.
Numeric header values (`str(...)` in Python) are kept as integers;
`Retry-After` is kept as the literal string the code writes. -/
structure RLHeaders where
  limitMinute : Int
  remainingMinute : Int
  limitHour : Int
  remainingHour : Int
  retryAfter : Option String
deriving DecidableEq, Repr

/-- Result of `_is_rate_limited`: the returned pair (is_limited, headers)
together with the pruned bucket contents (in Python the pruning mutates
`bucket.requests` in place). -/
structure RLCheckResult where
  limited : Bool
  headers : RLHeaders
  requests : List Int
deriving DecidableEq, Repr

/-- Embedding of `bucket.requests = [t for t in bucket.requests if now - t < 3600]`
(middleware.py line 83). -/
def pruneRequests (now : Int) (reqs : List Int) : List Int :=
  reqs.filter (fun t => decide (now - t < 3600))

/-- Direct embedding of `RateLimitMiddleware._is_rate_limited`
(middleware.py lines 73-110): prune entries older than one hour, count the
two windows, build the rate-limit headers, then decide
minute-window-first. -/
def is_rate_limited (cfg : RLConfig) (now : Int) (reqs : List Int) : RLCheckResult :=
  let pruned := pruneRequests now reqs
  let minute_ago := now - 60
  let requests_last_minute : Int := (pruned.filter (fun t => decide (t > minute_ago))).length
  let requests_last_hour : Int := pruned.length
  let remaining_minute := max 0 (cfg.requests_per_minute - requests_last_minute)
  let remaining_hour := max 0 (cfg.requests_per_hour - requests_last_hour)
  let base : RLHeaders :=
    { limitMinute := cfg.requests_per_minute
      remainingMinute := remaining_minute
      limitHour := cfg.requests_per_hour
      remainingHour := remaining_hour
      retryAfter := none }
  if requests_last_minute ≥ cfg.requests_per_minute then
    { limited := true, headers := { base with retryAfter := some "60" }, requests := pruned }
  else if requests_last_hour ≥ cfg.requests_per_hour then
    { limited := true, headers := { base with retryAfter := some "3600" }, requests := pruned }
  else
    { limited := false, headers := base, requests := pruned }

/-- A rate-limit decision as described by the specification (spec §4.2,
steps 2-7). -/
structure SpecDecision where
  allowed : Bool
  retryAfter : Option String
  remainingMinute : Int
  remainingHour : Int
  pruned : List Int
deriving DecidableEq, Repr

/-- The specification's sliding-window algorithm, written from the spec's
words (§4.2): prune all timestamps older than `now - 1 hour` (read
inclusively: a timestamp is kept iff it lies strictly within the last
hour), count timestamps within the last minute (`minuteCount`) and the
remaining timestamps (`hourCount`), deny with retry-after 60 when
`minuteCount ≥ minuteLimit`, else deny with retry-after 3600 when
`hourCount ≥ hourLimit`, else allow; always report
`max(0, limit - count)` for both windows. -/
def specSlidingWindow (cfg : RLConfig) (now : Int) (reqs : List Int) : SpecDecision :=
  let pruned := reqs.filter (fun t => decide (now - 3600 < t))
  let minuteCount : Int := pruned.countP (fun t => decide (now - 60 < t))
  let hourCount : Int := pruned.length
  { allowed := ¬ (minuteCount ≥ cfg.requests_per_minute) ∧
               ¬ (hourCount ≥ cfg.requests_per_hour)
    retryAfter :=
      if minuteCount ≥ cfg.requests_per_minute then some "60"
      else if hourCount ≥ cfg.requests_per_hour then some "3600"
      else none
    remainingMinute := max 0 (cfg.requests_per_minute - minuteCount)
    remainingHour := max 0 (cfg.requests_per_hour - hourCount)
    pruned := pruned }

/-- The bucket-level effect of `RateLimitMiddleware.dispatch`
(middleware.py lines 112-140) on one client's bucket: run
`_is_rate_limited` at time `now`; on denial return the 429 without
touching the bucket further; on allowance append a fresh timestamp `now2`
(`self.buckets[client_ip].requests.append(time.time())`, a second clock
read). -/
def rl_dispatch (cfg : RLConfig) (now now2 : Int) (reqs : List Int) : RLCheckResult :=
  let r := is_rate_limited cfg now reqs
  if r.limited then r
  else { r with requests := r.requests ++ [now2] }

/-! ## TTL cache (cache.py)

The cache behaviour itself lives in the external `cachetools.TTLCache`
library, which is not part of this repository's sources; `cache.py` only
instantiates it.  Modelled from the spec: §3 (TTLCache data model) and
§4.1 (get/set/clear/size contract): entries carry `expiresAt = now + ttl`;
`get` returns a live value and removes an expired one; `set` overwrites an
existing key with fresh expiry, and for a new key at capacity evicts
exactly one entry (the least-recently-inserted) before inserting. -/

/-- The cache entry type `CacheEntry<V>`: `{ value, expiresAt }` (spec §3). -/
structure CacheEntry (V : Type) where
  value : V
  expiresAt : Int
deriving DecidableEq, Repr

/-- The cache type `TTLCache<K,V>`: capacity, ttl, and entries in insertion
order (spec §3). -/
structure TTLCache (K V : Type) where
  capacity : Nat
  ttl : Int
  entries : List (K × CacheEntry V)
deriving DecidableEq, Repr

/-- First entry stored under key `k`, if any. -/
def lookupEntry {K V : Type} [DecidableEq K] (k : K) :
    List (K × CacheEntry V) → Option (CacheEntry V)
  | [] => none
  | (k', e) :: rest => if k' = k then some e else lookupEntry k rest

/-- Remove every entry stored under key `k`. -/
def removeKey {K V : Type} [DecidableEq K] (k : K) :
    List (K × CacheEntry V) → List (K × CacheEntry V)
  | [] => []
  | (k', e) :: rest =>
    if k' = k then removeKey k rest else (k', e) :: removeKey k rest

/-- Replace the entry stored under key `k` by `e`, keeping its position. -/
def replaceEntry {K V : Type} [DecidableEq K] (k : K) (e : CacheEntry V) :
    List (K × CacheEntry V) → List (K × CacheEntry V)
  | [] => []
  | (k', e') :: rest =>
    if k' = k then (k', e) :: replaceEntry k e rest
    else (k', e') :: replaceEntry k e rest

/-- The operation `get(key) -> V | absent` at time `now` (spec §4.1): a present,
unexpired entry is returned unchanged; a present but expired entry is
removed and absent is returned (lazy expiry). An entry is live while
`now < expiresAt`. -/
def TTLCache.get {K V : Type} [DecidableEq K] (c : TTLCache K V) (k : K) (now : Int) :
    Option V × TTLCache K V :=
  match lookupEntry k c.entries with
  | none => (none, c)
  | some e =>
    if now < e.expiresAt then (some e.value, c)
    else (none, { c with entries := removeKey k c.entries })

/-- The operation `set(key, value)` at time `now` (spec §4.1): unconditionally
(over)writes the entry with expiry `now + ttl`; if the key is new and the
cache is at capacity, evict exactly one entry (the least-recently-inserted,
i.e. the head of the insertion-ordered list) before inserting. -/
def TTLCache.set {K V : Type} [DecidableEq K] (c : TTLCache K V) (k : K) (v : V) (now : Int) :
    TTLCache K V :=
  let e : CacheEntry V := { value := v, expiresAt := now + c.ttl }
  if (lookupEntry k c.entries).isSome then
    { c with entries := replaceEntry k e c.entries }
  else if c.capacity ≤ c.entries.length then
    { c with entries := c.entries.drop 1 ++ [(k, e)] }
  else
    { c with entries := c.entries ++ [(k, e)] }

/-- Apply a sequence of `set` operations `(key, value, time)` in order. -/
def applyOps {K V : Type} [DecidableEq K] (c : TTLCache K V)
    (ops : List (K × V × Int)) : TTLCache K V :=
  ops.foldl (fun c op => c.set op.1 op.2.1 op.2.2) c

/-- The instance `_post_cache` (cache.py lines 24-26): individual-post cache with
`maxsize=MAX_INDIVIDUAL_POST_CACHE = 512`, initially empty. -/
def _post_cache (V : Type) (ttl : Int) : TTLCache String V :=
  { capacity := 512, ttl := ttl, entries := [] }

/-- The instance `_posts_list_cache` (cache.py lines 21-23): single-entry listing cache,
`maxsize=POSTS_LIST_CACHE_SIZE = 1`. -/
def _posts_list_cache (V : Type) (ttl : Int) : TTLCache String V :=
  { capacity := 1, ttl := ttl, entries := [] }

/-- The instance `_slug_map_cache` (cache.py lines 27-29): single-entry slug-map cache,
`maxsize=SLUG_MAP_CACHE_SIZE = 1`. -/
def _slug_map_cache (V : Type) (ttl : Int) : TTLCache String V :=
  { capacity := 1, ttl := ttl, entries := [] }

/-! ## Slug validation and content loading (content_store.py) -/

/-- Membership in the character class `[a-zA-Z0-9_-]` of `SLUG_PATTERN`
(content_store.py line 17). -/
def isSlugChar (c : Char) : Bool :=
  (decide ('a' ≤ c) && decide (c ≤ 'z')) ||
  (decide ('A' ≤ c) && decide (c ≤ 'Z')) ||
  (decide ('0' ≤ c) && decide (c ≤ '9')) ||
  decide (c = '_') || decide (c = '-')

/-- Truthiness of Python `SLUG_PATTERN.match(s)` where
`SLUG_PATTERN = re.compile(r"^[a-zA-Z0-9_-]+$")`.  In Python, without
`re.MULTILINE`, the anchor `$` matches at the end of the string or just
before a newline at the end of the string, so the pattern matches `s`
exactly when `s` consists of one or more class characters, optionally
followed by a single trailing newline. -/
def SLUG_PATTERN_match (s : String) : Bool :=
  let cs := s.data
  let core := if cs.getLast? = some '\n' then cs.dropLast else cs
  (! core.isEmpty) && core.all isSlugChar

/-- Embedding of `validate_slug` (content_store.py lines 27-47): reject
empty slugs, slugs longer than `MAX_SLUG_LENGTH = 200` characters, and
slugs not matched by `SLUG_PATTERN`; otherwise return the slug unchanged.
Raised `ValueError`s become `Except.error` with the message. -/
def validate_slug (slug : String) : Except String String :=
  if slug.isEmpty then
    .error "Slug cannot be empty"
  else if slug.length > 200 then
    .error "Slug too long (max 200 characters)"
  else if ! SLUG_PATTERN_match slug then
    .error "Invalid slug format. Use only alphanumeric characters, hyphens, and underscores."
  else
    .ok slug

/-- Outcome of one storage read, standing for the local-file / S3 backends
invoked by `load_post_by_slug`: the raw text, a missing post
(`FileNotFoundError`), or a backend failure (`ContentError`). -/
inductive StoreResult where
  | found (raw : String)
  | absent
  | storageFailure
deriving DecidableEq, Repr

/-- Failure modes of `load_post_by_slug` (content_store.py lines 111-130):
`ValueError` from slug validation, `FileNotFoundError`, `ContentError`. -/
inductive LoadFailure where
  | invalidSlug (msg : String)
  | fileNotFound
  | contentFailure
deriving DecidableEq, Repr

/-- Embedding of `load_post_by_slug` (content_store.py lines 111-130):
validate the slug first, and only on success consult the storage backend
(modelled by the oracle `store`). -/
def load_post_by_slug (store : String → StoreResult) (slug : String) :
    Except LoadFailure String :=
  match validate_slug slug with
  | .error msg => .error (.invalidSlug msg)
  | .ok s =>
    match store s with
    | .found raw => .ok raw
    | .absent => .error .fileNotFound
    | .storageFailure => .error .contentFailure

/-! ## Post models (models.py) and listing assembly (main.py) -/

/-- Frontmatter metadata relevant to post construction: the dictionary
returned by `parse_frontmatter`, restricted to the keys the handlers read
(`title`, `date`, `description`, `tags`), each possibly absent. -/
structure Frontmatter where
  title : Option String
  date : Option String
  description : Option String
  tags : Option (List String)
deriving DecidableEq, Repr

/-- The model `PostMeta` (models.py lines 18-33). -/
structure PostMeta where
  slug : String
  title : String
  date : String
  description : Option String
  tags : List String
deriving DecidableEq, Repr

/-- In models.py line 51, `PostSummary = PostMeta` (an alias). -/
abbrev PostSummary := PostMeta

/-- The model `PostDetail` (models.py lines 54-63). -/
structure PostDetail where
  meta : PostMeta
  content : String
deriving DecidableEq, Repr

/-- The `PostSummary(...)` construction in the listing loop (main.py lines
290-297): `title=str(meta_dict.get("title", slug))`,
`date=str(meta_dict.get("date", ""))`,
`description=meta_dict.get("description")`,
`tags=list(meta_dict.get("tags", []) or [])`. -/
def buildSummary (slug : String) (m : Frontmatter) : PostSummary :=
  { slug := slug
    title := m.title.getD slug
    date := m.date.getD ""
    description := m.description
    tags := m.tags.getD [] }

/-- The `PostMeta(...)` construction in `get_post` (main.py lines 374-380),
textually the same field formulas as in the listing loop. -/
def buildPostMeta (slug : String) (m : Frontmatter) : PostMeta :=
  { slug := slug
    title := m.title.getD slug
    date := m.date.getD ""
    description := m.description
    tags := m.tags.getD [] }

/-- Joint outcome of `load_post_by_slug` followed by `parse_frontmatter`
for one slug, as observed by the handlers: parsed metadata and body on
success, a `ValueError` (invalid slug or malformed frontmatter), a
`FileNotFoundError`, or a `ContentError`. -/
inductive LoadOutcome where
  | ok (meta : Frontmatter) (content : String)
  | validationFailure
  | missing
  | storageFailure
deriving DecidableEq, Repr

/-- The accumulation loop of `list_posts` on a cache miss (main.py lines
286-301): build a summary per slug in order; on `ValueError` or
`FileNotFoundError` skip the slug and continue; a `ContentError` escapes
the loop and fails the whole request. -/
def collectSummaries (env : String → LoadOutcome) : List String → Except Unit (List PostSummary)
  | [] => .ok []
  | slug :: rest =>
    match env slug with
    | .ok m _ => (collectSummaries env rest).map (fun tl => buildSummary slug m :: tl)
    | .validationFailure => collectSummaries env rest
    | .missing => collectSummaries env rest
    | .storageFailure => .error ()

/-- The precedence relation used to sort summaries: a summary may precede
another when its raw date string is the larger one (plain string
comparison). -/
def dateDescRel (a b : PostMeta) : Prop := b.date ≤ a.date

instance : DecidableRel dateDescRel :=
  fun a b => decidable_of_iff (b.date.toList ≤ a.date.toList) String.le_iff_toList_le.symm

instance : IsTotal PostMeta dateDescRel :=
  ⟨fun a b => le_total b.date a.date⟩

instance : IsTrans PostMeta dateDescRel :=
  ⟨fun _ _ _ hab hbc => hbc.trans hab⟩

/-- Embedding of `all_summaries.sort(key=lambda s: s.date, reverse=True)`
(main.py line 304): Python's stable sort with reversed comparisons is the
stable insertion sort by descending raw date string. -/
def sortByDateDesc (l : List PostSummary) : List PostSummary :=
  l.insertionSort dateDescRel

/-- Python slice `all_summaries[offset : offset + limit]` for non-negative
`offset` and `limit` (main.py line 309). -/
def paginate (l : List PostSummary) (offset limit : Nat) : List PostSummary :=
  (l.drop offset).take limit

/-- The model `PostListResponse` (models.py lines 66-79). -/
structure PostListResponse where
  posts : List PostSummary
  total : Nat
  limit : Nat
  offset : Nat
deriving DecidableEq, Repr

/-- The full unsliced listing produced on a cache miss: accumulate
summaries over the slugs, then sort by descending raw date string
(main.py lines 283-305). -/
def listUnsliced (env : String → LoadOutcome) (slugs : List String) :
    Except Unit (List PostSummary) :=
  (collectSummaries env slugs).map sortByDateDesc

/-- The `list_posts` handler on a cache miss (main.py lines 262-317):
assemble and sort the full listing, then paginate; `total` is the
pre-slice count.  FastAPI validates `limit ∈ [1, 100]` and `offset ≥ 0`
at the boundary. -/
def list_posts (env : String → LoadOutcome) (slugs : List String)
    (limit offset : Nat) : Except Unit PostListResponse :=
  (listUnsliced env slugs).map (fun all =>
    { posts := paginate all offset limit
      total := all.length
      limit := limit
      offset := offset })

/-- Embedding of `generate_etag` (main.py lines 163-172): the quoted hex
digest of the content.  The MD5 hex digest computed by `hashlib.md5` is an
external collaborator, modelled as the function parameter `h`. -/
def generate_etag (h : String → String) (content : String) : String :=
  "\"" ++ h content ++ "\""

/-- The listing ETag (main.py line 320):
`generate_etag(f"{total}-{offset}-{limit}")` computed from the response's
fields. -/
def list_posts_etag (h : String → String) (r : PostListResponse) : String :=
  generate_etag h (toString r.total ++ "-" ++ toString r.offset ++ "-" ++ toString r.limit)

/-- Failure modes of the `get_post` handler (main.py lines 324-388). -/
inductive GetPostFailure where
  | invalidSlug
  | missingPost
  | parseFailure
  | storageFailure
deriving DecidableEq, Repr

/-- The `get_post` handler on a cache miss (main.py lines 333-388): the
explicit `SLUG_PATTERN.match` check rejects first with 400; then load and
parse (the oracle `env`), mapping `FileNotFoundError` to 404; on success
build the detail from the parsed metadata. -/
def get_post (env : String → LoadOutcome) (slug : String) :
    Except GetPostFailure PostDetail :=
  if ! SLUG_PATTERN_match slug then .error .invalidSlug
  else
    match env slug with
    | .ok m content => .ok { meta := buildPostMeta slug m, content := content }
    | .validationFailure => .error .parseFailure
    | .missing => .error .missingPost
    | .storageFailure => .error .storageFailure

/-- The single-post ETag (main.py line 387): quoted digest of the post
body. -/
def post_etag (h : String → String) (d : PostDetail) : String :=
  generate_etag h d.content

instance {ε α : Type} [DecidableEq ε] [DecidableEq α] : DecidableEq (Except ε α) := fun a b =>
  match a, b with
  | .error e₁, .error e₂ => decidable_of_iff (e₁ = e₂) (by simp)
  | .error _, .ok _ => .isFalse (fun hc => Except.noConfusion hc)
  | .ok _, .error _ => .isFalse (fun hc => Except.noConfusion hc)
  | .ok a₁, .ok a₂ => decidable_of_iff (a₁ = a₂) (by simp)

/-! ## Helper lemmas -/

theorem except_map_ok {α β ε : Type} (f : α → β) (a : α) :
    Except.map f (Except.ok a : Except ε α) = Except.ok (f a) := rfl

theorem except_map_error {α β ε : Type} (f : α → β) (e : ε) :
    Except.map f (Except.error e : Except ε α) = Except.error e := rfl

/-- The code's hour-window prune keeps exactly the timestamps strictly
within the last hour, the spec's reading of step 2. -/
theorem pruneRequests_eq_spec_filter (now : Int) (reqs : List Int) :
    pruneRequests now reqs = reqs.filter (fun t => decide (now - 3600 < t)) := by
  unfold pruneRequests
  exact List.filter_congr (fun t _ => by simp only [decide_eq_decide]; omega)

/-- In every branch, `_is_rate_limited` leaves the bucket holding exactly
the pruned timestamps. -/
theorem is_rate_limited_requests (cfg : RLConfig) (now : Int) (reqs : List Int) :
    (is_rate_limited cfg now reqs).requests = pruneRequests now reqs := by
  simp only [is_rate_limited]
  split_ifs <;> rfl

theorem lookupEntry_mem {V : Type} {k : String} {e : CacheEntry V} :
    ∀ {l : List (String × CacheEntry V)}, lookupEntry k l = some e → (k, e) ∈ l := by
  intro l
  induction l with
  | nil => intro h; simp [lookupEntry] at h
  | cons p rest ih =>
    obtain ⟨k', e'⟩ := p
    intro h
    by_cases hk : k' = k
    · subst hk
      simp [lookupEntry] at h
      subst h
      exact List.mem_cons_self _ _
    · simp [lookupEntry, hk] at h
      exact List.mem_cons_of_mem _ (ih h)

theorem lookupEntry_replace_found {V : Type} {k : String} (e : CacheEntry V) :
    ∀ {l : List (String × CacheEntry V)}, (lookupEntry k l).isSome →
      lookupEntry k (replaceEntry k e l) = some e := by
  intro l
  induction l with
  | nil => intro h; simp [lookupEntry] at h
  | cons p rest ih =>
    obtain ⟨k', e'⟩ := p
    intro h
    by_cases hk : k' = k
    · simp [replaceEntry, lookupEntry, hk]
    · simp [replaceEntry, lookupEntry, hk] at h ⊢
      exact ih h

theorem lookupEntry_append_new {V : Type} {k : String} (e : CacheEntry V) :
    ∀ {l : List (String × CacheEntry V)}, lookupEntry k l = none →
      lookupEntry k (l ++ [(k, e)]) = some e := by
  intro l
  induction l with
  | nil => intro _; simp [lookupEntry]
  | cons p rest ih =>
    obtain ⟨k', e'⟩ := p
    intro h
    by_cases hk : k' = k
    · simp [lookupEntry, hk] at h
    · simp [lookupEntry, hk] at h ⊢
      exact ih h

theorem lookupEntry_none_drop_one {V : Type} {k : String} :
    ∀ {l : List (String × CacheEntry V)}, lookupEntry k l = none →
      lookupEntry k (l.drop 1) = none := by
  intro l
  cases l with
  | nil => intro _; simp [lookupEntry]
  | cons p rest =>
    obtain ⟨k', e'⟩ := p
    intro h
    by_cases hk : k' = k
    · simp [lookupEntry, hk] at h
    · simp [lookupEntry, hk] at h
      exact h

/-- Reading a key whose stored entry is known reduces to the expiry test. -/
theorem get_fst_of_lookup {V : Type} (c : TTLCache String V) (k : String) (t : Int)
    (e : CacheEntry V) (h : lookupEntry k c.entries = some e) :
    (c.get k t).1 = if t < e.expiresAt then some e.value else none := by
  simp only [TTLCache.get, h]
  split_ifs <;> rfl

theorem replaceEntry_length {V : Type} (k : String) (e : CacheEntry V) :
    ∀ l : List (String × CacheEntry V), (replaceEntry k e l).length = l.length := by
  intro l
  induction l with
  | nil => rfl
  | cons p rest ih =>
    obtain ⟨k', e'⟩ := p
    by_cases hk : k' = k <;> simp [replaceEntry, hk, ih]

theorem set_capacity {V : Type} (c : TTLCache String V) (k : String) (v : V) (now : Int) :
    (c.set k v now).capacity = c.capacity := by
  simp only [TTLCache.set]
  split_ifs <;> rfl

theorem set_length_le {V : Type} (c : TTLCache String V) (k : String) (v : V) (now : Int)
    (hcap : 0 < c.capacity) (h : c.entries.length ≤ c.capacity) :
    (c.set k v now).entries.length ≤ c.capacity := by
  simp only [TTLCache.set]
  split_ifs with h1 h2
  · simpa [replaceEntry_length] using h
  · simp only [List.length_append, List.length_drop, List.length_cons, List.length_nil]
    omega
  · simp only [List.length_append, List.length_cons, List.length_nil]
    omega

/-- Any sequence of `set` operations preserves the size bound and the
capacity field. -/
theorem applyOps_invariant {V : Type} :
    ∀ (ops : List (String × V × Int)) (c : TTLCache String V),
      0 < c.capacity → c.entries.length ≤ c.capacity →
      (applyOps c ops).entries.length ≤ c.capacity ∧ (applyOps c ops).capacity = c.capacity := by
  intro ops
  induction ops with
  | nil => intro c _ h2; exact ⟨h2, rfl⟩
  | cons op rest ih =>
    intro c h1 h2
    have hc := set_capacity c op.1 op.2.1 op.2.2
    have hl := set_length_le c op.1 op.2.1 op.2.2 h1 h2
    have hrec := ih (c.set op.1 op.2.1 op.2.2) (hc ▸ h1) (hc ▸ hl)
    have happ : applyOps c (op :: rest) = applyOps (c.set op.1 op.2.1 op.2.2) rest := by
      simp [applyOps]
    rw [happ]
    exact ⟨hc ▸ hrec.1, hrec.2.trans hc⟩

/-- The sort used by the listing is sorted for the descending raw-date
relation. -/
theorem sortByDateDesc_sorted (l : List PostSummary) :
    (sortByDateDesc l).Sorted dateDescRel :=
  List.sorted_insertionSort dateDescRel l

/-- A string below the empty string in the lexical order is empty. -/
theorem le_empty_iff {s : String} : s ≤ "" ↔ s = "" := by
  constructor
  · intro h
    refine le_antisymm h ?_
    rw [String.le_iff_toList_le]
    exact List.nil_le
  · intro h
    rw [h]

/-! ## Claim theorems -/

/-- C1: for every client bucket state, current time and limit
configuration, `_is_rate_limited` implements exactly the spec's
sliding-window algorithm: it first removes all timestamps older than one
hour, then counts timestamps within the last minute and the remaining
timestamps; it denies with Retry-After "60" when the minute count reaches
`requests_per_minute`, otherwise denies with Retry-After "3600" when the
hour count reaches `requests_per_hour`, otherwise allows — the
minute-window check taking precedence — and in every case reports
remaining quota `max(0, limit - count)` for both windows. -/
theorem rate_limit_check_implements_spec (cfg : RLConfig) (now : Int) (reqs : List Int) :
    (is_rate_limited cfg now reqs).limited = !(specSlidingWindow cfg now reqs).allowed
    ∧ (is_rate_limited cfg now reqs).headers.retryAfter
        = (specSlidingWindow cfg now reqs).retryAfter
    ∧ (is_rate_limited cfg now reqs).headers.remainingMinute
        = (specSlidingWindow cfg now reqs).remainingMinute
    ∧ (is_rate_limited cfg now reqs).headers.remainingHour
        = (specSlidingWindow cfg now reqs).remainingHour
    ∧ (is_rate_limited cfg now reqs).headers.limitMinute = cfg.requests_per_minute
    ∧ (is_rate_limited cfg now reqs).headers.limitHour = cfg.requests_per_hour
    ∧ (is_rate_limited cfg now reqs).requests = (specSlidingWindow cfg now reqs).pruned := by
  simp only [is_rate_limited, specSlidingWindow, pruneRequests_eq_spec_filter,
    List.countP_eq_length_filter, gt_iff_lt, ge_iff_le]
  split_ifs with h1 h2 <;> simp_all

/-- C2: on any cache state, setting a key and reading it back before the
ttl has elapsed returns the stored value, and reading at or after
expiry returns absent; moreover any successful read comes from a stored
entry whose expiry is still in the future — a read never returns an
entry whose expiry time has passed the current time. -/
theorem ttl_cache_set_get_correct {V : Type} :
    (∀ (c : TTLCache String V) (k : String) (v : V) (now t : Int),
      ((c.set k v now).get k t).1 = if t < now + c.ttl then some v else none)
    ∧ (∀ (c : TTLCache String V) (k : String) (now : Int) (w : V),
      (c.get k now).1 = some w →
        ∃ e : CacheEntry V, (k, e) ∈ c.entries ∧ e.value = w ∧ now < e.expiresAt) := by
  constructor
  · intro c k v now t
    by_cases h : (lookupEntry k c.entries).isSome
    · have hset : (c.set k v now).entries
          = replaceEntry k { value := v, expiresAt := now + c.ttl } c.entries := by
        simp [TTLCache.set, h]
      have := get_fst_of_lookup (c.set k v now) k t _
        (by rw [hset]; exact lookupEntry_replace_found _ h)
      simpa using this
    · have hnone : lookupEntry k c.entries = none := by
        cases hl : lookupEntry k c.entries
        · rfl
        · rw [hl] at h; simp at h
      by_cases hcap : c.capacity ≤ c.entries.length
      · have hset : (c.set k v now).entries
            = c.entries.drop 1 ++ [(k, { value := v, expiresAt := now + c.ttl })] := by
          simp [TTLCache.set, hnone, hcap]
        have := get_fst_of_lookup (c.set k v now) k t _
          (by rw [hset]; exact lookupEntry_append_new _ (lookupEntry_none_drop_one hnone))
        simpa using this
      · have hset : (c.set k v now).entries
            = c.entries ++ [(k, { value := v, expiresAt := now + c.ttl })] := by
          simp [TTLCache.set, hnone, hcap]
        have := get_fst_of_lookup (c.set k v now) k t _
          (by rw [hset]; exact lookupEntry_append_new _ hnone)
        simpa using this
  · intro c k now w h
    cases hl : lookupEntry k c.entries with
    | none =>
      simp only [TTLCache.get, hl] at h
      exact Option.noConfusion h
    | some e =>
      by_cases ht : now < e.expiresAt
      · simp only [TTLCache.get, hl, ht, if_true] at h
        simp only [Option.some.injEq] at h
        exact ⟨e, lookupEntry_mem hl, h, ht⟩
      · simp only [TTLCache.get, hl, ht, if_false] at h
        exact Option.noConfusion h

/-- C2 witness: a value set at time 0 with ttl 10 is readable at time 9
and gone at time 10; a successful read on a concrete state exhibits a
live entry. -/
theorem ttl_cache_set_get_correct_witness :
    (((Blog._post_cache Nat 10).set "k" 5 0).get "k" 9).1 = some 5
    ∧ (((Blog._post_cache Nat 10).set "k" 5 0).get "k" 10).1 = none
    ∧ ∃ e : CacheEntry Nat,
        ("k", e) ∈ (⟨512, 10, [("k", ⟨5, 10⟩)]⟩ : TTLCache String Nat).entries
        ∧ e.value = 5 ∧ (3 : Int) < e.expiresAt := by
  refine ⟨?_, ?_, ?_⟩
  · have := (ttl_cache_set_get_correct (V := Nat)).1 (Blog._post_cache Nat 10) "k" 5 0 9
    simpa [Blog._post_cache] using this
  · have := (ttl_cache_set_get_correct (V := Nat)).1 (Blog._post_cache Nat 10) "k" 5 0 10
    simpa [Blog._post_cache] using this
  · exact (ttl_cache_set_get_correct (V := Nat)).2
      (⟨512, 10, [("k", ⟨5, 10⟩)]⟩ : TTLCache String Nat) "k" 3 5 (by decide)

/-- C3: after any sequence of `set` operations, the per-post cache holds
at most 512 entries and the posts-list and slug-map caches at most 1;
and inserting a new key into a full cache evicts exactly one entry (the
oldest) before inserting, leaving the size at capacity. -/
theorem cache_capacity_invariant {V : Type} :
    (∀ (ttl : Int) (ops : List (String × V × Int)),
        (applyOps (Blog._post_cache V ttl) ops).entries.length ≤ 512
      ∧ (applyOps (Blog._posts_list_cache V ttl) ops).entries.length ≤ 1
      ∧ (applyOps (Blog._slug_map_cache V ttl) ops).entries.length ≤ 1)
    ∧ (∀ (c : TTLCache String V) (k : String) (v : V) (now : Int),
        lookupEntry k c.entries = none → c.entries.length = c.capacity → 0 < c.capacity →
        (c.set k v now).entries
            = c.entries.drop 1 ++ [(k, { value := v, expiresAt := now + c.ttl })]
        ∧ (c.set k v now).entries.length = c.capacity) := by
  constructor
  · intro ttl ops
    refine ⟨?_, ?_, ?_⟩
    · exact (applyOps_invariant ops (Blog._post_cache V ttl)
        (by simp [Blog._post_cache]) (by simp [Blog._post_cache])).1
    · exact (applyOps_invariant ops (Blog._posts_list_cache V ttl)
        (by simp [Blog._posts_list_cache]) (by simp [Blog._posts_list_cache])).1
    · exact (applyOps_invariant ops (Blog._slug_map_cache V ttl)
        (by simp [Blog._slug_map_cache]) (by simp [Blog._slug_map_cache])).1
  · intro c k v now hnew hfull hpos
    have hset : (c.set k v now).entries
        = c.entries.drop 1 ++ [(k, { value := v, expiresAt := now + c.ttl })] := by
      simp [TTLCache.set, hnew, hfull.ge]
    refine ⟨hset, ?_⟩
    rw [hset]
    simp only [List.length_append, List.length_drop, List.length_cons, List.length_nil]
    omega

/-- C3 witness: three inserts into the capacity-1 listing cache leave at
most one entry; inserting a new key into a full capacity-1 cache evicts
the old entry and keeps the size at 1. -/
theorem cache_capacity_invariant_witness :
    (applyOps (Blog._posts_list_cache Nat 7) [("a", 1, 0), ("b", 2, 1), ("c", 3, 2)]).entries.length ≤ 1
    ∧ (TTLCache.set (⟨1, 7, [("a", ⟨9, 5⟩)]⟩ : TTLCache String Nat) "b" 4 2).entries.length = 1 := by
  refine ⟨((cache_capacity_invariant (V := Nat)).1 7 _).2.1, ?_⟩
  exact ((cache_capacity_invariant (V := Nat)).2
    (⟨1, 7, [("a", ⟨9, 5⟩)]⟩ : TTLCache String Nat) "b" 4 2 (by decide) rfl (by decide)).2

/-- C4: a timestamp is appended to a client's bucket only when the request
is allowed: the bucket after `dispatch` is the pruned bucket, extended by
exactly one fresh timestamp on allow and by nothing on deny; pruning only
removes elements (the pruned bucket is a sublist of the original). -/
theorem dispatch_records_only_allowed_requests (cfg : RLConfig) (now now2 : Int)
    (reqs : List Int) :
    (rl_dispatch cfg now now2 reqs).requests
      = pruneRequests now reqs
        ++ (if (is_rate_limited cfg now reqs).limited then [] else [now2])
    ∧ (pruneRequests now reqs).Sublist reqs := by
  refine ⟨?_, List.filter_sublist reqs⟩
  unfold rl_dispatch
  by_cases h : (is_rate_limited cfg now reqs).limited
  · simp [h, is_rate_limited_requests]
  · simp [h, is_rate_limited_requests]

/-- C5: the full unsliced listing produced on a cache miss is sorted in
descending (non-increasing) lexical order of the raw date string: every
adjacent pair satisfies that the earlier summary's date string is ≥ the
later one's under plain string comparison. -/
theorem listing_sorted_desc_by_raw_date (env : String → LoadOutcome) (slugs : List String)
    (all : List PostSummary) (h : listUnsliced env slugs = .ok all) :
    all.Chain' (fun a b => b.date ≤ a.date) := by
  cases hc : collectSummaries env slugs with
  | error e => simp [listUnsliced, hc, except_map_error] at h
  | ok l =>
    simp only [listUnsliced, hc, except_map_ok, Except.ok.injEq] at h
    rw [← h]
    exact (sortByDateDesc_sorted l).chain'

/-- C5 witness: a concrete two-slug listing comes out in non-increasing
raw-date order. -/
theorem listing_sorted_desc_by_raw_date_witness :
    List.Chain' (fun a b : PostSummary => b.date ≤ a.date)
      [{ slug := "c", title := "c", date := "2024-01-15", description := none, tags := [] },
       { slug := "a", title := "a", date := "2024-01-10", description := none, tags := [] }] :=
  listing_sorted_desc_by_raw_date
    (fun s => if s = "a" then .ok ⟨none, some "2024-01-10", none, none⟩ "x"
              else .ok ⟨none, some "2024-01-15", none, none⟩ "y")
    ["a", "c"] _ (by decide)

/-- C6: for every valid pagination pair (limit in [1,100], offset ≥ 0),
the page equals `slice(allSummaries, offset, offset+limit)`, its length is
at most `limit`, the reported total is the pre-slice count, and an offset
at or past the total yields an empty page. -/
theorem pagination_laws (env : String → LoadOutcome) (slugs : List String)
    (limit offset : Nat) (all : List PostSummary)
    (hall : listUnsliced env slugs = .ok all)
    (h1 : 1 ≤ limit) (h2 : limit ≤ 100) :
    list_posts env slugs limit offset
      = .ok { posts := (all.drop offset).take limit, total := all.length,
              limit := limit, offset := offset }
    ∧ ((all.drop offset).take limit).length ≤ limit
    ∧ (all.length ≤ offset → (all.drop offset).take limit = []) := by
  refine ⟨?_, List.length_take_le _ _,
    fun h => by rw [List.drop_eq_nil_of_le h, List.take_nil]⟩
  simp [list_posts, hall, paginate, except_map_ok]

/-- C6 witness: one post, limit 20, offset 5 (≥ total) yields the empty
page with total 1. -/
theorem pagination_laws_witness :
    list_posts (fun _ => .ok ⟨none, some "2024", none, none⟩ "x") ["a"] 20 5
      = .ok { posts := [], total := 1, limit := 20, offset := 5 } := by
  have h := pagination_laws (fun _ => .ok ⟨none, some "2024", none, none⟩ "x") ["a"] 20 5
    [{ slug := "a", title := "a", date := "2024", description := none, tags := [] }]
    (by decide) (by decide) (by decide)
  simpa using h.1

/-- C8: when no storage error occurs, the listing loop succeeds and
returns exactly the summaries of the slugs whose load and parse
succeeded, in order — slugs failing with a validation or not-found error
are skipped and never fail the whole listing. -/
theorem listing_skips_bad_posts (env : String → LoadOutcome) (slugs : List String)
    (h : ∀ s ∈ slugs, env s ≠ .storageFailure) :
    collectSummaries env slugs
      = .ok (slugs.filterMap (fun s =>
          match env s with
          | .ok m _ => some (buildSummary s m)
          | _ => none)) := by
  induction slugs with
  | nil => rfl
  | cons a rest ih =>
    have ha := h a (List.mem_cons_self a rest)
    have hrest : ∀ s ∈ rest, env s ≠ .storageFailure :=
      fun s hs => h s (List.mem_cons_of_mem a hs)
    cases henv : env a with
    | ok m content =>
      simp [collectSummaries, henv, ih hrest, List.filterMap_cons, except_map_ok]
    | validationFailure => simp [collectSummaries, henv, ih hrest, List.filterMap_cons]
    | missing => simp [collectSummaries, henv, ih hrest, List.filterMap_cons]
    | storageFailure => exact absurd henv ha

/-- C8 witness: with one bad slug among three, the listing succeeds with
the two good summaries. -/
theorem listing_skips_bad_posts_witness :
    collectSummaries
      (fun s => if s = "bad" then .validationFailure
                else .ok ⟨some "T", some "2024-01-01", none, none⟩ "body")
      ["good", "bad", "other"]
      = .ok [{ slug := "good", title := "T", date := "2024-01-01", description := none, tags := [] },
             { slug := "other", title := "T", date := "2024-01-01", description := none, tags := [] }] := by
  have h := listing_skips_bad_posts
    (fun s => if s = "bad" then .validationFailure
              else .ok ⟨some "T", some "2024-01-01", none, none⟩ "body")
    ["good", "bad", "other"] (by decide)
  rw [h]
  decide

/-- C9: a post whose frontmatter omits the title is served (in both the
listing summary and the single-post detail) with the slug as title, and a
missing date becomes the empty string; and since the listing sort is
descending by raw date string, in the sorted listing no empty-dated
summary is ever followed by a non-empty-dated one — posts with missing
dates come after all dated posts. -/
theorem missing_title_date_defaults :
    (∀ (slug : String) (m : Frontmatter), m.title = none → (buildSummary slug m).title = slug)
    ∧ (∀ (slug : String) (m : Frontmatter), m.date = none → (buildSummary slug m).date = "")
    ∧ (∀ (slug : String) (m : Frontmatter), m.title = none → (buildPostMeta slug m).title = slug)
    ∧ (∀ (slug : String) (m : Frontmatter), m.date = none → (buildPostMeta slug m).date = "")
    ∧ (∀ l : List PostSummary,
        (sortByDateDesc l).Pairwise (fun a b => a.date = "" → b.date = "")) := by
  refine ⟨?_, ?_, ?_, ?_, ?_⟩
  · intro slug m h; simp [buildSummary, h]
  · intro slug m h; simp [buildSummary, h]
  · intro slug m h; simp [buildPostMeta, h]
  · intro slug m h; simp [buildPostMeta, h]
  · intro l
    refine (sortByDateDesc_sorted l).imp ?_
    intro a b hab hae
    rw [dateDescRel, hae] at hab
    exact le_empty_iff.mp hab

/-- C9 witness: concrete defaults for a frontmatter with no title and no
date, and a concrete sorted list where the undated post trails. -/
theorem missing_title_date_defaults_witness :
    (buildSummary "hello" ⟨none, none, none, none⟩).title = "hello"
    ∧ (buildSummary "hello" ⟨none, none, none, none⟩).date = ""
    ∧ (buildPostMeta "hello" ⟨none, none, none, none⟩).title = "hello"
    ∧ (buildPostMeta "hello" ⟨none, none, none, none⟩).date = ""
    ∧ List.Pairwise (fun a b : PostSummary => a.date = "" → b.date = "")
        (sortByDateDesc [⟨"a", "a", "", none, []⟩, ⟨"b", "b", "2024", none, []⟩]) :=
  ⟨missing_title_date_defaults.1 "hello" _ rfl,
   missing_title_date_defaults.2.1 "hello" _ rfl,
   missing_title_date_defaults.2.2.1 "hello" _ rfl,
   missing_title_date_defaults.2.2.2.1 "hello" _ rfl,
   missing_title_date_defaults.2.2.2.2 _⟩

/-- C10: the listing ETag is the quoted digest of the string
"{total}-{offset}-{limit}", a function of only those three values: any
two successful /posts responses for the same limit and offset with equal
totals carry identical ETags, whatever their posts contain. -/
theorem listing_etag_function_of_pagination_only (h : String → String)
    (env₁ env₂ : String → LoadOutcome) (slugs₁ slugs₂ : List String)
    (limit offset : Nat) (r₁ r₂ : PostListResponse)
    (h₁ : list_posts env₁ slugs₁ limit offset = .ok r₁)
    (h₂ : list_posts env₂ slugs₂ limit offset = .ok r₂)
    (htot : r₁.total = r₂.total) :
    list_posts_etag h r₁ = list_posts_etag h r₂
    ∧ list_posts_etag h r₁
        = "\"" ++ h (toString r₁.total ++ "-" ++ toString offset ++ "-" ++ toString limit) ++ "\"" := by
  have f₁ : r₁.offset = offset ∧ r₁.limit = limit := by
    cases hc : collectSummaries env₁ slugs₁ with
    | error e => simp [list_posts, listUnsliced, hc, except_map_error] at h₁
    | ok l =>
      simp only [list_posts, listUnsliced, hc, except_map_ok, Except.ok.injEq] at h₁
      rw [← h₁]
      exact ⟨rfl, rfl⟩
  have f₂ : r₂.offset = offset ∧ r₂.limit = limit := by
    cases hc : collectSummaries env₂ slugs₂ with
    | error e => simp [list_posts, listUnsliced, hc, except_map_error] at h₂
    | ok l =>
      simp only [list_posts, listUnsliced, hc, except_map_ok, Except.ok.injEq] at h₂
      rw [← h₂]
      exact ⟨rfl, rfl⟩
  constructor
  · simp only [list_posts_etag, generate_etag, htot, f₁.1, f₁.2, f₂.1, f₂.2]
  · simp only [list_posts_etag, generate_etag, f₁.1, f₁.2]

/-- C10 witness: two one-post listings with different titles, dates and
contents but the same total, offset and limit get identical ETags. -/
theorem listing_etag_function_of_pagination_only_witness :
    list_posts_etag (fun s => s)
        { posts := [{ slug := "a", title := "A", date := "2024", description := none, tags := [] }],
          total := 1, limit := 20, offset := 0 }
      = list_posts_etag (fun s => s)
        { posts := [{ slug := "b", title := "B", date := "2025", description := none, tags := [] }],
          total := 1, limit := 20, offset := 0 } :=
  (listing_etag_function_of_pagination_only (fun s => s)
    (fun _ => .ok ⟨some "A", some "2024", none, none⟩ "x")
    (fun _ => .ok ⟨some "B", some "2025", none, none⟩ "y")
    ["a"] ["b"] 20 0 _ _ (by decide) (by decide) (by decide)).1

/-- C7 (code bug): Python's `$` anchor also matches just before a single
trailing newline, so `validate_slug` accepts the four-character slug
"abc\n" even though the newline is outside the class `[a-zA-Z0-9_-]`,
contradicting the claim (and the function's own error message); the
other rejection and acceptance behaviours the claim states are as
claimed, and an invalid slug is rejected by `load_post_by_slug` without
consulting the storage backend. -/
theorem validate_slug_trailing_newline_bug :
    validate_slug "abc\n" = Except.ok "abc\n"
    ∧ isSlugChar '\n' = false
    ∧ ("abc\n" : String).isEmpty = false
    ∧ ("abc\n" : String).length ≤ 200
    ∧ validate_slug "abc" = Except.ok "abc"
    ∧ validate_slug "a/b"
        = Except.error "Invalid slug format. Use only alphanumeric characters, hyphens, and underscores."
    ∧ validate_slug "a b"
        = Except.error "Invalid slug format. Use only alphanumeric characters, hyphens, and underscores."
    ∧ validate_slug ".."
        = Except.error "Invalid slug format. Use only alphanumeric characters, hyphens, and underscores."
    ∧ validate_slug "" = Except.error "Slug cannot be empty"
    ∧ load_post_by_slug (fun _ => .found "raw") "a/b"
        = load_post_by_slug (fun _ => .absent) "a/b" := by
  decide

end Blog
